import Mathlib

/-!
# Verification of the smalloc allocator (grim210/smalloc)

Shallow embedding of `src/src/smalloc.c` (and of the public surface declared in
`src/include/smalloc.h`) in Lean 4, together with theorems settling the spec
claims about it.

Conventions of the embedding:
* Addresses and sizes are `Nat`; where C `size_t`/pointer arithmetic can wrap,
  the wrap is made explicit with `% 2 ^ 64` (LP64 model, e.g. x86-64 Linux).
* Struct sizes are the LP64 values:
  `sizeof(struct _smalloc_chunk_t) = 32` (ptr 8 + len 8 + freed 4+pad 4 + next 8),
  `sizeof(struct _smalloc_pagegroup_t) = 48` (six 8-byte fields),
  `sizeof(struct _smalloc_block_t) = 24` (len 8 + freed 4+pad 4 + next 8).
* Offsets inside a page group are measured from the start of the mmap'd region,
  so the group header occupies offsets `[0, 48)` and the chunk area starts at
  offset `PG_HDR = 48` (the initial value of `pg->top`).
* A `NULL` pointer is `0`; `mmap`'s failure value `MAP_FAILED = (void * )-1`
  is `2 ^ 64 - 1`.
-/

/-- `sizeof(struct _smalloc_chunk_t)` on LP64 (smalloc.c:24-29). -/
def CHUNK_HDR : Nat := 32

/-- `sizeof(struct _smalloc_pagegroup_t)` on LP64 (smalloc.c:49-56). -/
def PG_HDR : Nat := 48

/-- `sizeof(struct _smalloc_block_t)` on LP64 (smalloc.c:68-72). -/
def BLOCK_HDR : Nat := 24

/-- `SMALLOC_SMALLEST_PAGE_GROUP` (smalloc.c:64-66). -/
def SMALLOC_SMALLEST_PAGE_GROUP : Nat := 1

/-- `2 ^ 64`: modulus of 64-bit `size_t` / pointer arithmetic. -/
def U64 : Nat := 2 ^ 64

/-- `MAP_FAILED = (void * )-1`, the value `mmap` returns when the OS declines
a mapping (POSIX; note it is not `NULL`). -/
def MAP_FAILED : Nat := U64 - 1

/-- `SIZE_MAX` for 64-bit `size_t`. -/
def SIZE_MAX : Nat := U64 - 1

/-- Embedding of `struct _smalloc_chunk_t` (smalloc.c:24-29).
`base` is the offset of the chunk header itself inside its page group (the
address the struct lives at); `ptr`, `len`, `freed` are the stored fields.
The `next` link is represented by the position in the owning group's `chunks`
list (the code only ever appends at the tail, smalloc.c:482-487). -/
structure Chunk where
  base : Nat
  ptr : Nat
  len : Nat
  freed : Nat
deriving Repr, DecidableEq

/-- Embedding of `struct _smalloc_pagegroup_t` (smalloc.c:49-56).
`top` is kept as an offset from the start of the group's mmap'd region.
`lenbytes` is declared in the struct but never assigned anywhere in the
source; the region comes zero-filled from `mmap`, so it stays `0`.
The `next` link is represented by list position in the group chain. -/
structure PageGroup where
  top : Nat
  npages : Nat
  lenbytes : Nat
  bytesfree : Nat
  chunks : List Chunk
deriving Repr, DecidableEq

/-- The byte length `_pages_alloc` maps (smalloc.c:387-395), with the C
`size_t` arithmetic made explicit: `adjusted = size + sizeof(pagegroup) +
sizeof(chunk)` and `pcount * pagesize` are 64-bit values (so they wrap mod
`2 ^ 64` for sizes near `SIZE_MAX`); the first branch maps `pcount` pages
when they cover `adjusted`, the second maps
`pagesize * (adjusted / pagesize) + pagesize`, again a `size_t` sum. -/
def pagesAllocLen (psz size pcount : Nat) : Nat :=
  let adjusted := (size + PG_HDR + CHUNK_HDR) % U64
  if adjusted ≤ pcount * psz % U64 then pcount * psz % U64
  else (psz * (adjusted / psz) + psz) % U64

/-- The `npages` field `_pages_alloc` stores (smalloc.c:387-395): `pcount`
in the first branch, `len / pagesize` in the second (same `size_t`
arithmetic as `pagesAllocLen`). -/
def pagesAllocNpages (psz size pcount : Nat) : Nat :=
  let adjusted := (size + PG_HDR + CHUNK_HDR) % U64
  if adjusted ≤ pcount * psz % U64 then pcount
  else pagesAllocLen psz size pcount / psz

/-- Embedding of `_pages_alloc` (smalloc.c:363-428), success-of-mmap case:
the freshly initialized page-group header. `top = ret + sizeof(pagegroup)`
(offset `PG_HDR`), `bytesfree = npages * pagesize - sizeof(pagegroup)`
(never wraps: the mapped length always covers the 48-byte header for any
positive page size), `chunks = NULL`, `lenbytes` left untouched (zero-filled
mapping). -/
def pagesAlloc (psz size pcount : Nat) : PageGroup :=
  { top := PG_HDR,
    npages := pagesAllocNpages psz size pcount,
    lenbytes := 0,
    bytesfree := pagesAllocNpages psz size pcount * psz - PG_HDR,
    chunks := [] }

/-- Embedding of `_smalloc_init_` (smalloc.c:250-295), after a successful
`_pages_alloc(initial, SMALLOC_SMALLEST_PAGE_GROUP)`: carve the first chunk
at `pg->top`, with `chk->ptr = chk + sizeof(struct _smalloc_chunk_t)` — C
pointer arithmetic on a `struct _smalloc_chunk_t *`, which advances by
`sizeof` ELEMENTS, i.e. by `CHUNK_HDR * CHUNK_HDR` bytes — then advance
`pg->top` by `chunk_size = initial + sizeof(struct _smalloc_chunk_t)`.
Note `pg->bytesfree` is not decremented on this path. -/
def smallocInit (psz initial : Nat) : PageGroup :=
  let pg := pagesAlloc psz initial SMALLOC_SMALLEST_PAGE_GROUP
  let chk : Chunk :=
    { base := pg.top,
      ptr := pg.top + CHUNK_HDR * CHUNK_HDR,
      len := initial,
      freed := 0 }
  { pg with top := pg.top + (initial + CHUNK_HDR), chunks := [chk] }

/-- Embedding of `_pgroup_fits` (smalloc.c:441-450):
`pg->bytesfree >= size + sizeof(struct _smalloc_chunk_t)`. -/
def pgroupFits (pg : PageGroup) (size : Nat) : Bool :=
  decide (size + CHUNK_HDR ≤ pg.bytesfree)

/-- Embedding of `_pgroup_reserve` (smalloc.c:458-490): carve a chunk at
`pg->top`, advance `top` and decrement `bytesfree` by
`size + sizeof(struct _smalloc_chunk_t)` (the `size_t` subtraction never
wraps on the paths the code reaches, because `smalloc2` calls this only
under the `_pgroup_fits` guard), set
`chunk->ptr = chunk + sizeof(struct _smalloc_chunk_t)` (again typed pointer
arithmetic: `+ CHUNK_HDR * CHUNK_HDR` bytes), and append the chunk at the
tail of `pg->chunks` (the walk at smalloc.c:482-487 needs a non-empty list,
which holds in every state the code reaches). Returns `chunk->ptr`. -/
def pgroupReserve (pg : PageGroup) (size : Nat) : PageGroup × Nat :=
  let chk : Chunk :=
    { base := pg.top,
      ptr := pg.top + CHUNK_HDR * CHUNK_HDR,
      len := size,
      freed := 0 }
  ({ pg with
      top := pg.top + (size + CHUNK_HDR),
      bytesfree := pg.bytesfree - (size + CHUNK_HDR),
      chunks := pg.chunks ++ [chk] },
   chk.ptr)

/-- Embedding of the ready path of `smalloc2` (smalloc.c:215-247): walk the
group chain for the first group that fits; if none does, return `NULL` with
the chain unchanged (the explicit TODO at smalloc.c:220-236); otherwise
reserve from the found group. The returned `Option Nat` is the user pointer
(`none` for `NULL`). -/
def smalloc2Ready : List PageGroup → Nat → List PageGroup × Option Nat
  | [], _ => ([], none)
  | pg :: rest, size =>
    if pgroupFits pg size then
      let r := pgroupReserve pg size
      (r.1 :: rest, some r.2)
    else
      let r := smalloc2Ready rest size
      (pg :: r.1, r.2)

/-- Embedding of `_pgroup_cleanup` (smalloc.c:452-456): the body is
`return -1;` — it inspects nothing, unlinks nothing, releases nothing. -/
def pgroupCleanup (list : List PageGroup) : List PageGroup × Int :=
  (list, -1)

/-- The states of the single page group that the `smalloc2` path can reach:
`_smalloc_init_` creates it, and `_pgroup_reserve` mutates it whenever
`_pgroup_fits` approved the request.  (No other mutation exists in the
source: `_pgroup_append` and `_pgroup_cleanup` are never called, and no
free path is implemented, so the chain always holds exactly this group.) -/
inductive Reachable (psz : Nat) : PageGroup → Prop where
  | init : ∀ initial : Nat, Reachable psz (smallocInit psz initial)
  | reserve : ∀ (pg : PageGroup) (size : Nat), Reachable psz pg →
      pgroupFits pg size = true → Reachable psz (pgroupReserve pg size).1

/-- Footprint of a chunk: header plus usable bytes, the amount by which
`pg->top` advances when the chunk is carved. -/
def chunkFootprint (c : Chunk) : Nat := c.len + CHUNK_HDR

/-- Total footprint of a list of chunks. -/
def chunksFootprint (cs : List Chunk) : Nat := (cs.map chunkFootprint).sum

/-- The chunks tile memory contiguously from offset `off`: each chunk's
header sits exactly where the previous chunk's footprint ended. -/
def tilesFrom : Nat → List Chunk → Bool
  | _, [] => true
  | off, c :: cs => (c.base == off) && tilesFrom (off + chunkFootprint c) cs

/-- The spec's `capacity_bytes`: usable bytes of a group excluding the group
header, `npages * page_size - pagegroup_header_size` (this is exactly the
value `_pages_alloc` stores into `bytesfree` at creation, smalloc.c:422). -/
def capacityBytes (psz : Nat) (pg : PageGroup) : Nat :=
  pg.npages * psz - PG_HDR

/-- Embedding of `struct _smalloc_block_t` (smalloc.c:68-72); `next` is a
pointer value (`none` for `NULL`). -/
structure Block where
  len : Nat
  freed : Nat
  next : Option Nat
deriving Repr, DecidableEq

/-- The allocator state the `smalloc` ("v1") path can touch: the static
`_info.head` sentinel's `next` field (`_info = {0}`, so it starts `none`).
`smalloc` writes each block's header into the mmap'd region itself, never
into `_info`, so this is the whole persistent block-tracking state. -/
structure SState where
  headNext : Option Nat
deriving Repr, DecidableEq

/-- The page-rounded length `smalloc` computes (smalloc.c:163-170):
`len = size + sizeof(struct _smalloc_block_t)`, rounded up to a multiple of
the page size. -/
def smallocRound (psz size : Nat) : Nat :=
  let l := size + BLOCK_HDR
  if l % psz ≠ 0 then l + (psz - l % psz) else l

/-- Embedding of `_smalloc_osalloc` (smalloc.c:346-361): reject a length
that is not page-aligned, otherwise return the `mmap` result VERBATIM —
`mres` is whatever `mmap` returned, which is `MAP_FAILED = (void * )-1`,
not `NULL`, when the OS declines the mapping. -/
def smallocOsalloc (psz len mres : Nat) : Nat :=
  if len % psz ≠ 0 then 0 else mres

/-- Embedding of `_smalloc_append` (smalloc.c:297-321) with explicit fuel
for the C call stack (`none` models non-termination / stack exhaustion).
The function copies the block's own header into a stack-local `header`; if
`header.next` is non-null it recurses with the SAME block (so it re-reads
the same header — the recursion never progresses); otherwise it assigns
`header.next = block`, a write to the stack-local copy only, and returns 0.
No field of `list` or of any list node is ever written. -/
def smallocAppend : Nat → SState → Block → Option (SState × Int)
  | 0, _, _ => none
  | fuel + 1, st, blk =>
    match blk.next with
    | none => some (st, 0)
    | some _ => smallocAppend fuel st blk

/-- Embedding of `smalloc` (smalloc.c:144-194), initialized case
(`_smalloc_init` only records the page size and always succeeds):
round the length up to pages, call `_smalloc_osalloc` (whose `mmap` outcome
is the oracle `mres`), compare the result against `NULL` (not against
`MAP_FAILED`), write the header into the mapped region, call
`_smalloc_append` on `&_info.head` (fuel 1 is exact: the block passed
always has `next = NULL`, set at smalloc.c:165/183), and return
`mem + sizeof(struct _smalloc_block_t)` — byte arithmetic on `void *`
(GCC extension), reduced mod `2 ^ 64`.  Returns the new state and the user
pointer (`0` for `NULL`). -/
def smallocStep (psz : Nat) (st : SState) (size mres : Nat) :
    Option (SState × Nat) :=
  let len := smallocRound psz size
  let mem := smallocOsalloc psz len mres
  if mem = 0 then some (st, 0)
  else
    match smallocAppend 1 st { len := len, freed := 0, next := none } with
    | none => none
    | some (st2, r) =>
      if r = 0 then some (st2, (mem + BLOCK_HDR) % U64) else some (st2, 0)

/-- Run a sequence of `smalloc` calls from a state: each call is a pair
`(size, mres)` of requested size and `mmap` outcome.  `none` if any call
diverges. -/
def runSmalloc (psz : Nat) : List (Nat × Nat) → SState → Option SState
  | [], st => some st
  | c :: rest, st =>
    match smallocStep psz st c.1 c.2 with
    | none => none
    | some r => runSmalloc psz rest r.1

/-- A live allocation in the spec model: user pointer and the bytes of the
user region. -/
structure MChunk where
  ptr : Nat
  data : List Nat
deriving Repr, DecidableEq

/-- Allocator state for the spec model of the unimplemented public
operations: the live chunks, a Page Source call counter (instrumentation of
the spec's "performs no Page Source call" observables), and the next fresh
address. -/
structure MState where
  mem : List MChunk
  osCalls : Nat
  nextPtr : Nat
deriving Repr, DecidableEq

/-- Modelled from the spec: `allocate` (§4.3, §6) as consumed by
`zero_allocate` and `resize` — the repository declares `scalloc`/`srealloc`
(include/smalloc.h:14-15) but contains no definition of them, and the
page-group allocate path they would sit on is unfinished, so the allocate
they rely on is modelled from the spec's words.  `osOk` is the Page Source
outcome (every attempt counts as one Page Source call; a declined mapping
is `OutOfMemory = none`, never retried, §7).  A fresh region's bytes are
`junk` padded with zeros: §4.3 explicitly does NOT guarantee zeros on chunk
reuse, so `junk` models whatever stale bytes the recycled chunk held. -/
def mAllocate (osOk : Bool) (junk : List Nat) (st : MState) (n : Nat) :
    Option Nat × MState :=
  if osOk then
    (some st.nextPtr,
     { mem := st.mem ++ [⟨st.nextPtr, (junk ++ List.replicate n 0).take n⟩],
       osCalls := st.osCalls + 1,
       nextPtr := st.nextPtr + n + 1 })
  else
    (none, { st with osCalls := st.osCalls + 1 })

/-- Result of `zero_allocate` in the spec model. -/
inductive ZAResult where
  | overflow
  | outOfMemory
  | ok (ptr : Nat)
deriving Repr, DecidableEq

/-- Modelled from the spec: `zero_allocate` (§4.6) — `scalloc` is declared
(include/smalloc.h:14) but has no definition anywhere in the repository.
Per the spec: fail with `Overflow` when `count * size` overflows the size
representation, before any Page Source call; otherwise behave as
`allocate(count * size)` followed by an explicit zero-fill of the entire
returned region, regardless of provenance. -/
def mZeroAllocate (osOk : Bool) (junk : List Nat) (st : MState)
    (count size : Nat) : ZAResult × MState :=
  if SIZE_MAX < count * size then (ZAResult.overflow, st)
  else
    match mAllocate osOk junk st (count * size) with
    | (none, st2) => (ZAResult.outOfMemory, st2)
    | (some p, st2) =>
      (ZAResult.ok p,
       { st2 with
          mem := st2.mem.map fun c =>
            if c.ptr = p then ⟨p, List.replicate (count * size) 0⟩ else c })

/-- Modelled from the spec: `resize` (§4.5) — `srealloc` is declared
(include/smalloc.h:15) but has no definition anywhere in the repository.
Grow path per the spec: allocate a new chunk of the new size, copy
`min(old, new)` bytes, release the old chunk, return the new pointer; fail
with `OutOfMemory` when the new allocation fails, in which case the
original pointer and its contents remain valid and untouched (the declined
Page Source call is still counted — the call counter is instrumentation of
the Page Source, not allocator state).  `new ≤ old` keeps the chunk in
place (§4.5 shrink), and an unknown pointer is rejected. -/
def mResize (osOk : Bool) (junk : List Nat) (st : MState) (p m : Nat) :
    Option Nat × MState :=
  match st.mem.find? (fun c => c.ptr == p) with
  | none => (none, st)
  | some c =>
    if m ≤ c.data.length then (some p, st)
    else
      match mAllocate osOk junk st m with
      | (none, st2) => (none, { st with osCalls := st2.osCalls })
      | (some q, st2) =>
        (some q,
         { st2 with
            mem := (st2.mem.filter (fun c2 => c2.ptr != p)).map fun c2 =>
              if c2.ptr = q then ⟨q, (c.data ++ List.replicate m 0).take m⟩
              else c2 })

/-! ## Helper lemmas -/

theorem chunksFootprint_append (cs : List Chunk) (c : Chunk) :
    chunksFootprint (cs ++ [c]) = chunksFootprint cs + chunkFootprint c := by
  simp [chunksFootprint]

theorem tilesFrom_append (off : Nat) (cs : List Chunk) (c : Chunk)
    (h : tilesFrom off cs = true) (hb : c.base = off + chunksFootprint cs) :
    tilesFrom off (cs ++ [c]) = true := by
  induction cs generalizing off with
  | nil =>
    simp [chunksFootprint] at hb
    simp [tilesFrom, hb]
  | cons d ds ih =>
    simp only [tilesFrom, Bool.and_eq_true, beq_iff_eq] at h
    simp only [List.cons_append, tilesFrom, Bool.and_eq_true, beq_iff_eq]
    refine ⟨h.1, ih _ h.2 ?_⟩
    rw [hb]
    simp [chunksFootprint, chunkFootprint]
    omega

theorem smallocStep_fst (psz : Nat) (st : SState) (size mres : Nat)
    (r : SState × Nat) (h : smallocStep psz st size mres = some r) :
    r.1 = st := by
  simp only [smallocStep, smallocAppend] at h
  split at h
  · cases h; rfl
  · simp only [reduceIte, Option.some.injEq] at h
    cases h; rfl

theorem runSmalloc_state_eq (psz : Nat) (calls : List (Nat × Nat))
    (st st2 : SState) (h : runSmalloc psz calls st = some st2) : st2 = st := by
  induction calls generalizing st with
  | nil => simp [runSmalloc] at h; exact h.symm
  | cons c rest ih =>
    unfold runSmalloc at h
    cases hs : smallocStep psz st c.1 c.2 with
    | none => rw [hs] at h; cases h
    | some r =>
      rw [hs] at h
      have h1 := smallocStep_fst psz st c.1 c.2 r hs
      have h2 := ih r.1 h
      rw [h2, h1]

/-! ## Claim theorems -/

/-- Claim C1 (code_bug): the claim says the user pointer of every chunk is
the chunk header's address plus exactly one chunk-header size.  The code
(smalloc.c:286, 473) computes `chunk->ptr = chunk + sizeof(struct
_smalloc_chunk_t)` on a TYPED pointer, which advances by `sizeof` elements
— `CHUNK_HDR * CHUNK_HDR = 1024` bytes, not `CHUNK_HDR = 32`.  Evaluated
at the failing input (the group made by `smalloc2(0)`'s init, then a
reservation of 100 bytes): the returned pointer is header + 1024, so the
header is NOT recoverable at `pointer - header_size`. -/
theorem chunk_ptr_is_header_plus_1024_not_32 :
    (pgroupReserve (smallocInit 4096 0) 100).2 =
      (smallocInit 4096 0).top + CHUNK_HDR * CHUNK_HDR ∧
    (pgroupReserve (smallocInit 4096 0) 100).2 ≠
      (smallocInit 4096 0).top + CHUNK_HDR := by decide

/-- Claim C2 (code_bug): the claim says that when no page group fits, the
allocator obtains a new group, appends it, and satisfies the request.  The
code (smalloc.c:230-236, the explicit TODO) returns `NULL` with the chain
unchanged.  Evaluated at the failing input — `smalloc2(0)` initializes one
group with 4048 free bytes, then `smalloc2(5000)` fits nowhere: the result
is `NULL` (`none`) and no group was appended. -/
theorem smalloc2_no_fit_returns_null_without_new_group :
    smalloc2Ready [smallocInit 4096 0] 5000 =
      ([smallocInit 4096 0], none) := by decide

/-- Claim C3 (code_bug): the claim says an OS-declined mapping makes the
allocation fail with the null sentinel.  On POSIX a declined `mmap` returns
`MAP_FAILED = (void * )-1`, not `NULL`; `_smalloc_osalloc` (smalloc.c:360)
returns it verbatim and `smalloc` (smalloc.c:173) compares against `NULL`
only, so `smalloc(100)` under a declined mapping returns
`MAP_FAILED + 24 mod 2^64 = 23` — a non-null pointer derived from the
failed mapping — instead of failing. -/
theorem smalloc_mmap_decline_returns_nonnull :
    smallocStep 4096 ⟨none⟩ 100 MAP_FAILED = some (⟨none⟩, 23) ∧
    (23 : Nat) ≠ 0 := by
  constructor
  · rfl
  · decide

/-- Claim C4 (code_bug): the claim says `free_bytes` always equals usable
capacity minus the total footprint of all carved chunks, every reservation
(including the first chunk carved at initialization) decrementing it.
`_smalloc_init_` (smalloc.c:281-293) carves the first chunk but never
decrements `bytesfree`.  Evaluated at the failing input `smalloc2(100)` as
the first call (page size 4096): `bytesfree` stays 4048 = the full
capacity, while capacity minus the carved footprint is 3916. -/
theorem bytesfree_not_decremented_at_init :
    (smallocInit 4096 100).bytesfree = 4048 ∧
    capacityBytes 4096 (smallocInit 4096 100) -
      chunksFootprint (smallocInit 4096 100).chunks = 3916 ∧
    (4048 : Nat) ≠ 3916 := by decide

/-- Claim C5 (confirmed): in every state reachable by the page-group path
(initialization followed by guarded reservations — the only mutations in
the source), the chunks of the group tile its memory contiguously from the
start of the chunk area (offset `PG_HDR`) to the bump cursor (`pg->top`):
each chunk header sits exactly where the previous footprint ended, and the
footprints (header + usable size) sum to the cursor's offset. -/
theorem pgroup_chunks_tile_to_bump_cursor (psz : Nat) (pg : PageGroup)
    (h : Reachable psz pg) :
    tilesFrom PG_HDR pg.chunks = true ∧
    PG_HDR + chunksFootprint pg.chunks = pg.top := by
  induction h with
  | init initial =>
    constructor
    · simp [smallocInit, pagesAlloc, tilesFrom]
    · simp [smallocInit, pagesAlloc, chunksFootprint, chunkFootprint,
        PG_HDR, CHUNK_HDR]
  | reserve pg size hr hfits ih =>
    obtain ⟨iht, ihs⟩ := ih
    constructor
    · refine tilesFrom_append _ _ _ iht ?_
      simp only [pgroupReserve]
      omega
    · simp only [pgroupReserve, chunksFootprint_append, chunkFootprint]
      omega

/-- Witness for C5: the tiling invariant, instantiated at the concrete
reachable state produced by `smalloc2(100)` as first call with page size
4096. -/
theorem pgroup_chunks_tile_to_bump_cursor_witness :
    tilesFrom PG_HDR (smallocInit 4096 100).chunks = true ∧
    PG_HDR + chunksFootprint (smallocInit 4096 100).chunks =
      (smallocInit 4096 100).top :=
  pgroup_chunks_tile_to_bump_cursor 4096 (smallocInit 4096 100)
    (Reachable.init 100)

/-- Claim C7 (code_bug): the claim says a page group whose `free_bytes`
equals its capacity is unlinked and its pages released.  `_pgroup_cleanup`
(smalloc.c:452-456) is `return -1;`: it releases nothing and reports
failure, contradicting its own header comment (smalloc.c:122-130), and no
free path exists (`sfree`/`sfree2` are declared but undefined).  Evaluated
at the failing input — a chain holding one group with
`bytesfree = capacity` (fresh group from `_pages_alloc(0, 1)`): the chain
is returned untouched together with `-1`. -/
theorem pgroup_cleanup_releases_nothing :
    (pagesAlloc 4096 0 1).bytesfree =
      capacityBytes 4096 (pagesAlloc 4096 0 1) ∧
    pgroupCleanup [pagesAlloc 4096 0 1] = ([pagesAlloc 4096 0 1], -1) := by
  constructor
  · decide
  · rfl

/-- Counterexample for C6: the claim says the page count for a new group is
exactly `ceil((s + pagegroup_header + chunk_header) / page_size)`, floored
at the configured minimum.  At `s = 8112`, page size 4096, minimum 1, the
adjusted size is exactly `2 * 4096`, the claimed count is `max 2 1 = 2`,
but `_pages_alloc` (smalloc.c:391-394) computes
`pagesize * (adjusted / pagesize) + pagesize` and reserves 3 pages. -/
theorem pages_alloc_not_ceil_counterexample :
    pagesAllocNpages 4096 8112 1 = 3 ∧
    max ((8112 + PG_HDR + CHUNK_HDR + 4096 - 1) / 4096)
      SMALLOC_SMALLEST_PAGE_GROUP = 2 ∧
    (3 : Nat) ≠ 2 := by decide

/-- Claim C6 as amended (corrected): for requests whose `size_t` arithmetic
does not wrap — `adjusted = s + pagegroup_header + chunk_header` plus one
page stays below `2 ^ 64`, as does `pcount * page_size` (outside that range
`_pages_alloc`'s 64-bit arithmetic wraps and the count collapses) — when
the requested minimum `pcount` already covers `adjusted` bytes the page
count is exactly `pcount`; otherwise it is `adjusted / page_size + 1` —
equal to `ceil(adjusted / page_size)` whenever `page_size` does not divide
`adjusted`, and to `ceil + 1` (one page more than the claim says) when it
divides exactly.  In particular it is never fewer than the configured
minimum.  (The function's own comment — "extra pages may be requested" —
permits this over-allocation.) -/
theorem pages_alloc_npages_characterization (psz s pcount : Nat)
    (hpsz : 0 < psz)
    (hadj : s + PG_HDR + CHUNK_HDR + psz < U64)
    (hcnt : pcount * psz < U64) :
    pcount ≤ pagesAllocNpages psz s pcount ∧
    (s + PG_HDR + CHUNK_HDR ≤ pcount * psz →
      pagesAllocNpages psz s pcount = pcount) ∧
    (pcount * psz < s + PG_HDR + CHUNK_HDR →
      ¬ psz ∣ (s + PG_HDR + CHUNK_HDR) →
      pagesAllocNpages psz s pcount =
        (s + PG_HDR + CHUNK_HDR + psz - 1) / psz) ∧
    (pcount * psz < s + PG_HDR + CHUNK_HDR →
      psz ∣ (s + PG_HDR + CHUNK_HDR) →
      pagesAllocNpages psz s pcount =
        (s + PG_HDR + CHUNK_HDR + psz - 1) / psz + 1) := by
  have hA : (s + PG_HDR + CHUNK_HDR) % U64 = s + PG_HDR + CHUNK_HDR :=
    Nat.mod_eq_of_lt (by omega)
  have hC : pcount * psz % U64 = pcount * psz := Nat.mod_eq_of_lt hcnt
  set a := s + PG_HDR + CHUNK_HDR with ha
  by_cases hcov : a ≤ pcount * psz
  · have hn : pagesAllocNpages psz s pcount = pcount := by
      simp [pagesAllocNpages, ← ha, hA, hC, hcov]
    refine ⟨le_of_eq hn.symm, fun _ => hn, fun hlt _ => ?_, fun hlt _ => ?_⟩
    · omega
    · omega
  · have hlt : pcount * psz < a := by omega
    have hmul : psz * (a / psz) ≤ a := by
      rw [Nat.mul_comm]
      exact Nat.div_mul_le_self a psz
    have hL : (psz * (a / psz) + psz) % U64 = psz * (a / psz) + psz :=
      Nat.mod_eq_of_lt (by omega)
    have hn : pagesAllocNpages psz s pcount = a / psz + 1 := by
      simp only [pagesAllocNpages, pagesAllocLen, ← ha, hA, hC,
        if_neg hcov, hL]
      rw [Nat.mul_add_div hpsz, Nat.div_self hpsz]
    have hple : pcount ≤ a / psz :=
      (Nat.le_div_iff_mul_le hpsz).mpr (le_of_lt hlt)
    refine ⟨by omega, fun hc => absurd hc hcov, fun _ hnd => ?_,
      fun _ hd => ?_⟩
    · have hr0 : a % psz ≠ 0 := fun h => hnd (Nat.dvd_iff_mod_eq_zero.mpr h)
      have hrlt : a % psz < psz := Nat.mod_lt _ hpsz
      have hdm : psz * (a / psz) + a % psz = a := Nat.div_add_mod a psz
      have key : a + psz - 1 = psz * (a / psz + 1) + (a % psz - 1) := by
        rw [Nat.mul_add, Nat.mul_one]
        omega
      rw [hn, key, Nat.mul_add_div hpsz,
        Nat.div_eq_of_lt (by omega : a % psz - 1 < psz)]
    · obtain ⟨m, hm⟩ := hd
      have key : a + psz - 1 = psz * m + (psz - 1) := by omega
      rw [hn, key, Nat.mul_add_div hpsz,
        Nat.div_eq_of_lt (by omega : psz - 1 < psz), hm,
        Nat.mul_div_cancel_left m hpsz]

/-- Witness for the amended C6, instantiated at page size 4096, request
8112, minimum 1 (the counterexample's input, where no `size_t` wrap
occurs). -/
theorem pages_alloc_npages_characterization_witness :
    (8112 : Nat) + PG_HDR + CHUNK_HDR + 4096 < U64 ∧
    1 * 4096 < U64 ∧
    1 ≤ pagesAllocNpages 4096 8112 1 ∧
    ((8112 : Nat) + PG_HDR + CHUNK_HDR ≤ 1 * 4096 →
      pagesAllocNpages 4096 8112 1 = 1) ∧
    (1 * 4096 < (8112 : Nat) + PG_HDR + CHUNK_HDR →
      ¬ (4096 : Nat) ∣ (8112 + PG_HDR + CHUNK_HDR) →
      pagesAllocNpages 4096 8112 1 =
        (8112 + PG_HDR + CHUNK_HDR + 4096 - 1) / 4096) ∧
    (1 * 4096 < (8112 : Nat) + PG_HDR + CHUNK_HDR →
      (4096 : Nat) ∣ (8112 + PG_HDR + CHUNK_HDR) →
      pagesAllocNpages 4096 8112 1 =
        (8112 + PG_HDR + CHUNK_HDR + 4096 - 1) / 4096 + 1) :=
  ⟨by decide, by decide,
   pages_alloc_npages_characterization 4096 8112 1 (by decide) (by decide)
     (by decide)⟩

/-- Zeroing every model chunk at pointer `p` makes `p` look up to an
all-zero region (helper for the zero-allocate theorem). -/
theorem find_map_zero (l : List MChunk) (p n : Nat) (h : ∃ c ∈ l, c.ptr = p) :
    (l.map fun c =>
        if c.ptr = p then ⟨p, List.replicate n 0⟩ else c).find?
      (fun c => c.ptr == p) = some ⟨p, List.replicate n 0⟩ := by
  induction l with
  | nil => simp at h
  | cons d ds ih =>
    by_cases hd : d.ptr = p
    · simp [List.find?, hd]
    · simp only [List.map_cons, if_neg hd]
      rw [List.find?_cons_of_neg]
      · apply ih
        rcases h with ⟨c, hc, hcp⟩
        rcases List.mem_cons.mp hc with h1 | h2
        · exact absurd (h1 ▸ hcp) hd
        · exact ⟨c, h2, hcp⟩
      · simp [hd]

/-- Claim C8 (confirmed, spec-modelled): for a live pointer `p` of usable
size `n` and a grow request `m > n`, if the new allocation fails (the Page
Source declines), `resize` returns the `OutOfMemory` sentinel and leaves
the allocator state — the live chunks and the fresh-address cursor — and
the contents of the old region exactly as they were: `p` still looks up to
its original bytes. -/
theorem mresize_failure_is_noop (junk : List Nat) (st : MState)
    (p m : Nat) (c : MChunk)
    (hfind : st.mem.find? (fun c2 => c2.ptr == p) = some c)
    (hgrow : c.data.length < m) :
    (mResize false junk st p m).1 = none ∧
    (mResize false junk st p m).2.mem = st.mem ∧
    (mResize false junk st p m).2.nextPtr = st.nextPtr ∧
    (mResize false junk st p m).2.mem.find? (fun c2 => c2.ptr == p) =
      some c := by
  simp only [mResize, hfind, mAllocate]
  rw [if_neg (by omega)]
  exact ⟨rfl, rfl, rfl, hfind⟩

/-- Witness for C8: a state with one live chunk at pointer 0 holding bytes
`[1, 2]`, grown to 5 bytes while the Page Source declines. -/
theorem mresize_failure_is_noop_witness :
    ((⟨[⟨0, [1, 2]⟩], 0, 10⟩ : MState).mem.find?
        (fun c2 => c2.ptr == 0) = some ⟨0, [1, 2]⟩) ∧
    ([1, 2] : List Nat).length < 5 ∧
    ((mResize false [9] ⟨[⟨0, [1, 2]⟩], 0, 10⟩ 0 5).1 = none ∧
     (mResize false [9] ⟨[⟨0, [1, 2]⟩], 0, 10⟩ 0 5).2.mem = [⟨0, [1, 2]⟩] ∧
     (mResize false [9] ⟨[⟨0, [1, 2]⟩], 0, 10⟩ 0 5).2.nextPtr = 10 ∧
     (mResize false [9] ⟨[⟨0, [1, 2]⟩], 0, 10⟩ 0 5).2.mem.find?
        (fun c2 => c2.ptr == 0) = some ⟨0, [1, 2]⟩) :=
  ⟨by decide, by decide,
   mresize_failure_is_noop [9] ⟨[⟨0, [1, 2]⟩], 0, 10⟩ 0 5 ⟨0, [1, 2]⟩
     (by decide) (by decide)⟩

/-- Claim C9 (confirmed, spec-modelled): when `count * size` overflows the
size representation, `zero_allocate` fails with `Overflow` and the state —
in particular the Page Source call counter — is untouched (no Page Source
call); otherwise it behaves as `allocate(count * size)` followed by a
zero-fill: an allocation failure propagates with allocate's resulting
state, and a returned pointer looks up to a region of `count * size`
bytes that are all zero, even though `allocate` itself handed over stale
(`junk`) bytes. -/
theorem mzero_allocate_spec (osOk : Bool) (junk : List Nat) (st : MState)
    (count size : Nat) :
    (SIZE_MAX < count * size →
      mZeroAllocate osOk junk st count size = (ZAResult.overflow, st)) ∧
    (count * size ≤ SIZE_MAX →
      ((mAllocate osOk junk st (count * size)).1 = none →
        mZeroAllocate osOk junk st count size =
          (ZAResult.outOfMemory, (mAllocate osOk junk st (count * size)).2)) ∧
      (∀ q, (mAllocate osOk junk st (count * size)).1 = some q →
        (mZeroAllocate osOk junk st count size).1 = ZAResult.ok q ∧
        (mZeroAllocate osOk junk st count size).2.mem.find?
            (fun c => c.ptr == q) =
          some ⟨q, List.replicate (count * size) 0⟩)) := by
  constructor
  · intro h
    simp [mZeroAllocate, if_pos h]
  · intro h
    have hno : ¬ SIZE_MAX < count * size := not_lt.mpr h
    cases osOk with
    | false =>
      constructor
      · intro _
        simp [mZeroAllocate, if_neg hno, mAllocate]
      · intro q hq
        simp [mAllocate] at hq
    | true =>
      have hall : mAllocate true junk st (count * size) =
          (some st.nextPtr,
           { mem := st.mem ++
               [⟨st.nextPtr,
                 (junk ++ List.replicate (count * size) 0).take
                   (count * size)⟩],
             osCalls := st.osCalls + 1,
             nextPtr := st.nextPtr + count * size + 1 }) := rfl
      constructor
      · intro hq
        rw [hall] at hq
        simp at hq
      · intro q hq
        rw [hall] at hq
        simp only [Option.some.injEq] at hq
        subst hq
        constructor
        · simp [mZeroAllocate, if_neg hno, hall]
        · simp only [mZeroAllocate, if_neg hno, hall]
          apply find_map_zero
          exact ⟨⟨st.nextPtr,
            (junk ++ List.replicate (count * size) 0).take (count * size)⟩,
            by simp, rfl⟩

/-- Witness for C9: `zero_allocate(2^63, 2)` overflows — `Overflow`, no
Page Source call, state untouched; `zero_allocate(2, 3)` after the model
allocator hands over stale bytes `[5, 7]` returns pointer 0 whose 6-byte
region is all zeros. -/
theorem mzero_allocate_spec_witness :
    (SIZE_MAX < 2 ^ 63 * 2 ∧
     mZeroAllocate true [5, 7] ⟨[], 0, 0⟩ (2 ^ 63) 2 =
       (ZAResult.overflow, ⟨[], 0, 0⟩)) ∧
    ((2 : Nat) * 3 ≤ SIZE_MAX ∧
     (mZeroAllocate true [5, 7] ⟨[], 0, 0⟩ 2 3).1 = ZAResult.ok 0 ∧
     (mZeroAllocate true [5, 7] ⟨[], 0, 0⟩ 2 3).2.mem.find?
        (fun c => c.ptr == 0) = some ⟨0, List.replicate 6 0⟩) := by
  have hov : SIZE_MAX < 2 ^ 63 * 2 := by decide
  have hle : (2 : Nat) * 3 ≤ SIZE_MAX := by decide
  have h1 := (mzero_allocate_spec true [5, 7] ⟨[], 0, 0⟩ (2 ^ 63) 2).1 hov
  have h2 := ((mzero_allocate_spec true [5, 7] ⟨[], 0, 0⟩ 2 3).2 hle).2 0 rfl
  exact ⟨⟨hov, h1⟩, ⟨hle, h2.1, h2.2⟩⟩

/-- Claim C10 (confirmed): after every sequence of `smalloc` calls
(arbitrary sizes and `mmap` outcomes) that terminates, the block-tracking
list headed at `_info.head` is still empty — `head.next` is null — and
`_smalloc_append`, on every block `smalloc` can pass it (`next = NULL`),
returns success while leaving the state untouched: it assigns the block
only to a stack-local copy of a header, so no allocated block is ever
reachable from the allocator state. -/
theorem smalloc_head_list_stays_empty (psz : Nat)
    (calls : List (Nat × Nat)) (st2 : SState) (st : SState) (blk : Block)
    (h : runSmalloc psz calls ⟨none⟩ = some st2)
    (hb : blk.next = none) :
    st2.headNext = none ∧ smallocAppend 1 st blk = some (st, 0) := by
  constructor
  · rw [runSmalloc_state_eq psz calls ⟨none⟩ st2 h]
  · simp [smallocAppend, hb]

/-- Witness for C10: two `smalloc` calls — one with a successful mapping at
address 8192, one with a declined one — leave `head.next` null, and the
append on a fresh one-page block reports success without touching the
state. -/
theorem smalloc_head_list_stays_empty_witness :
    runSmalloc 4096 [(100, 8192), (50, 0)] ⟨none⟩ = some ⟨none⟩ ∧
    (⟨4096, 0, none⟩ : Block).next = none ∧
    ((⟨none⟩ : SState).headNext = none ∧
     smallocAppend 1 ⟨none⟩ ⟨4096, 0, none⟩ = some (⟨none⟩, 0)) :=
  ⟨rfl, rfl,
   smalloc_head_list_stays_empty 4096 [(100, 8192), (50, 0)] ⟨none⟩ ⟨none⟩
     ⟨4096, 0, none⟩ rfl rfl⟩
